import Mathlib

/-!
Verification development for the screen-memory assistant ("edgy").

The definitions below are a shallow embedding of the core of `src/main.ts`
(multi-entry memory store variant), of the renderer's stream subscriber
(`App.tsx`), and of the IPC chat handler (`IPCManager`).  JavaScript strings
are modelled as Lean `String`, JS numbers used as integers/timestamps as
`Int`, and the floating-point similarity ratio as `ℚ` (the comparison
`> 0.8` is exact at the list sizes involved).  Calls to the external
generation collaborator (the Gemini model) are modelled by explicit outcome
parameters: whether the model object is initialized, and either the response
text or an error for each call.
-/

/-- Model of the JavaScript `\s` character class (whitespace as used by
`String.prototype.trim` and the `/\s+/` split in `calculateSimilarity`). -/
def jsIsWs (c : Char) : Bool :=
  c = ' ' || c = '\t' || c = '\n' || c = '\u000B' || c = '\u000C' || c = '\r' ||
  c = ' ' || c = ' ' || (0x2000 ≤ c.toNat && c.toNat ≤ 0x200A) ||
  c = ' ' || c = ' ' || c = ' ' || c = ' ' || c = '　' ||
  c = '﻿'

/-- Model of JavaScript `String.prototype.trim`. -/
def jsTrim (s : String) : String :=
  String.mk (((s.toList.dropWhile jsIsWs).reverse.dropWhile jsIsWs).reverse)

/-- Model of JavaScript `String.prototype.toLowerCase` (ASCII range; the
source only compares OCR text, where the ASCII mapping is the relevant one). -/
def jsToLower (s : String) : String := String.mk (s.toList.map Char.toLower)

/-- One step (right to left) of splitting on maximal whitespace runs: the
state is the list of tokens built so far together with a flag telling
whether the previously processed character was whitespace (so that an
adjacent whitespace character extends the same run instead of opening a new
empty token). -/
def splitWsStep (c : Char) : List (List Char) × Bool → List (List Char) × Bool
  | (ts, lastWs) =>
    if jsIsWs c then
      if lastWs then (ts, true) else ([] :: ts, true)
    else
      match ts with
      | t :: rest => ((c :: t) :: rest, false)
      | [] => ([[c]], false)

/-- Model of `str.split(/\s+/)`: split on maximal runs of whitespace.  A
leading (resp. trailing) run produces a leading (resp. trailing) empty
token, and the empty string yields `[""]`, exactly as in JavaScript. -/
def splitWsRuns (cs : List Char) : List (List Char) :=
  (cs.foldr splitWsStep ([[]], false)).1

/-- Word list of a text as built by `calculateSimilarity`: lowercase, split
on whitespace runs, duplicates removed (the JS `Set`; only membership and
size are ever used, so the retained occurrence's position is immaterial). -/
def jsWordList (s : String) : List String :=
  ((splitWsRuns (jsToLower s).toList).map String.mk).dedup

/-- Embedding of `calculateSimilarity` (main.ts:396-405): Jaccard index of
the two word sets, with JS `Set` semantics modelled by deduplicated lists. -/
def calculateSimilarity (text1 text2 : String) : ℚ :=
  let words1 := jsWordList text1
  let words2 := jsWordList text2
  let inter := words1.filter (fun x => words2.contains x)
  let union := (words1 ++ words2).dedup
  mkRat inter.length union.length

/-- Numeric value of a decimal digit run. -/
def decDigitsVal (ds : List Char) : Nat :=
  ds.foldl (fun a c => 10 * a + (c.toNat - '0'.toNat)) 0

/-- Whether a character is a hexadecimal digit. -/
def isHexDigitB (c : Char) : Bool :=
  c.isDigit || ('a' ≤ c && c ≤ 'f') || ('A' ≤ c && c ≤ 'F')

/-- Numeric value of a hexadecimal digit run. -/
def hexDigitsVal (ds : List Char) : Nat :=
  ds.foldl (fun a c =>
    16 * a +
      (if c.isDigit then c.toNat - '0'.toNat
       else if 'a' ≤ c then c.toNat - 'a'.toNat + 10
       else c.toNat - 'A'.toNat + 10)) 0

/-- Model of JavaScript `parseInt(s)` with the radix argument omitted:
skip leading whitespace, read an optional sign, then either a `0x`/`0X`
hexadecimal literal or a maximal decimal-digit prefix; `none` models `NaN`. -/
def parseIntJS (s : String) : Option Int :=
  let cs := s.toList.dropWhile jsIsWs
  let signed : Int × List Char :=
    match cs with
    | '-' :: r => (-1, r)
    | '+' :: r => (1, r)
    | _ => (1, cs)
  let core : Option Nat :=
    match signed.2 with
    | '0' :: 'x' :: r =>
      let ds := r.takeWhile isHexDigitB
      if ds.isEmpty then none else some (hexDigitsVal ds)
    | '0' :: 'X' :: r =>
      let ds := r.takeWhile isHexDigitB
      if ds.isEmpty then none else some (hexDigitsVal ds)
    | body =>
      let ds := body.takeWhile Char.isDigit
      if ds.isEmpty then none else some (decDigitsVal ds)
  core.map (fun n => signed.1 * (n : Int))

/-- Embedding of `assessContentImportance` (main.ts:308-333).  `hasModel`
models whether `geminiModel` is initialized; `resp` models the collaborator
call, either the response text (which the source trims before `parseInt`)
or a thrown error. -/
def assessContentImportance (hasModel : Bool) (resp : Except Unit String) : Int :=
  if !hasModel then 5
  else
    match resp with
    | .error _ => 5
    | .ok text =>
      match parseIntJS (jsTrim text) with
      | none => 5
      | some importance => max 1 (min 10 importance)

/-- Embedding of the `MemoryEntry` record (main.ts:18-22). -/
structure MemoryEntry where
  timestamp : Int
  content : String
  importance : Int
  deriving DecidableEq, Repr

/-- The capacity cap `MAX_MEMORY_ENTRIES` (main.ts:25). -/
def MAX_MEMORY_ENTRIES : Nat := 50

/-- The order induced by the consolidation comparator
`(a, b) => b.importance - a.importance || b.timestamp - a.timestamp`:
`memLe a b` holds when `a` sorts no later than `b`, i.e. importance
descending with timestamp descending as tie-break. -/
def memLe (a b : MemoryEntry) : Bool :=
  decide (b.importance < a.importance) ||
  (decide (b.importance = a.importance) && decide (b.timestamp ≤ a.timestamp))

/-- Stable insertion into a sorted list: `x` goes before the first element
it compares no-greater than, so equal elements keep their original order. -/
def insertStable (le : α → α → Bool) (x : α) : List α → List α
  | [] => [x]
  | y :: ys => if le x y then x :: y :: ys else y :: insertStable le x ys

/-- Stable sort (insertion sort).  `Array.prototype.sort` is required to be
stable by the JS specification, and a stable sort w.r.t. a total preorder is
unique, so this models the source's `.sort(...)` exactly. -/
def sortStable (le : α → α → Bool) : List α → List α
  | [] => []
  | x :: xs => insertStable le x (sortStable le xs)

/-- Collaborator environment for one memory-store operation: whether the
Gemini model object is initialized, and the outcomes of the (at most one)
importance call and (at most one) consolidation call it may make. -/
structure CollabEnv where
  hasModel : Bool
  assessResp : Except Unit String
  consolidateResp : Except Unit String

/-- Embedding of `consolidateMemory` (main.ts:335-394).  No model: stable
sort by importance desc / timestamp desc and keep `MAX_MEMORY_ENTRIES`.
Model present and the call succeeds: replace everything by one summary
entry of importance 8.  Model present and the call throws: same sort but
keep only `Math.floor(MAX_MEMORY_ENTRIES / 2)` entries. -/
def consolidateMemory (env : CollabEnv) (now : Int) (entries : List MemoryEntry) :
    List MemoryEntry :=
  if !env.hasModel then
    (sortStable memLe entries).take MAX_MEMORY_ENTRIES
  else
    match env.consolidateResp with
    | .ok consolidatedContent => [⟨now, consolidatedContent, 8⟩]
    | .error _ => (sortStable memLe entries).take (MAX_MEMORY_ENTRIES / 2)

/-- Embedding of `addToMemory` (main.ts:264-306): skip the observation if
its similarity with any of the last 5 entries exceeds 0.8; otherwise assess
importance, append the entry, and consolidate when the cap is exceeded.
The insert-and-consolidate pair is one atomic step, as in the source where
no reader runs between them within the same async operation. -/
def addToMemory (env : CollabEnv) (now : Int) (entries : List MemoryEntry)
    (content : String) : List MemoryEntry :=
  let recentEntries := entries.drop (entries.length - 5)
  let isDuplicate :=
    recentEntries.any (fun entry => decide (calculateSimilarity entry.content content > mkRat 4 5))
  if isDuplicate then entries
  else
    let importance := assessContentImportance env.hasModel env.assessResp
    let entries' := entries ++ [⟨now, content, importance⟩]
    if entries'.length > MAX_MEMORY_ENTRIES then consolidateMemory env now entries'
    else entries'

/-- The observation pipeline of the capture tick (main.ts:241-249) composed
with `addToMemory`: empty or whitespace-only OCR text is dropped before the
store is touched (`if (text.trim())`), and the trimmed text is stored. -/
def addObservation (env : CollabEnv) (now : Int) (entries : List MemoryEntry)
    (text : String) : List MemoryEntry :=
  if jsTrim text = "" then entries
  else addToMemory env now entries (jsTrim text)

/-- Model of JavaScript `Array.prototype.join(sep)`. -/
def jsJoin (sep : String) : List String → String
  | [] => ""
  | [x] => x
  | x :: y :: xs => x ++ sep ++ jsJoin sep (y :: xs)

/-- Embedding of `getMemoryContext` (main.ts:407-418).  `fmtTime` models
`new Date(t).toLocaleTimeString()` (locale-dependent, kept abstract). -/
def getMemoryContext (now : Int) (fmtTime : Int → String) (entries : List MemoryEntry) :
    String :=
  if entries.length = 0 then ""
  else
    let qualifying := entries.filter
      (fun entry => decide (6 ≤ entry.importance) || decide (now - 300000 < entry.timestamp))
    let recentEntries := jsJoin "\n"
      ((qualifying.drop (qualifying.length - 10)).map
        (fun entry => "[" ++ fmtTime entry.timestamp ++ "] " ++ entry.content))
    if recentEntries = "" then "" else "\n\nRecent screen context:\n" ++ recentEntries

/-- Embedding of the debug `get-memory-entries` handler (main.ts:432-434):
it answers `memoryEntries.slice(-20)` (a copy of the last 20 entries) and
does not modify the store. -/
def getMemoryEntriesDebug (entries : List MemoryEntry) : List MemoryEntry :=
  entries.drop (entries.length - 20)

/-- One memory-store operation, as dispatched by the IPC layer: an
observation from the capture tick (`addObservation`, including any
consolidation it triggers), the debug `clear-memory` handler, or the debug
`consolidate-memory` handler.  Each operation carries the collaborator
outcomes and wall-clock time it runs with. -/
inductive MemOp where
  | addObs (text : String) (env : CollabEnv) (now : Int)
  | clear
  | consolidateNow (env : CollabEnv) (now : Int)

/-- Effect of one completed operation on the entry sequence. -/
def applyMemOp (entries : List MemoryEntry) : MemOp → List MemoryEntry
  | .addObs text env now => addObservation env now entries text
  | .clear => []
  | .consolidateNow env now => consolidateMemory env now entries

/-- The consumer-visible store invariant: at most `MAX_MEMORY_ENTRIES`
entries, every importance an integer in `[1, 10]`. -/
def MemInv (entries : List MemoryEntry) : Prop :=
  entries.length ≤ MAX_MEMORY_ENTRIES ∧
  ∀ e ∈ entries, 1 ≤ e.importance ∧ e.importance ≤ 10

/-! Renderer subscriber (`App.tsx`): the `gemini-stream` listener and
`handleSubmit`, modelled as a deterministic transition system.  React state
updates are modelled as taking effect at the end of the handler that issues
them, which matches the single-threaded event-loop execution order. -/

/-- Role of a chat message. -/
inductive Role where
  | user
  | assistant
  | system
  deriving DecidableEq, Repr

/-- A chat message of the renderer's `messages` state. -/
structure ChatMessage where
  id : String
  role : Role
  content : String
  deriving DecidableEq, Repr

/-- Payload of one `gemini-stream` IPC event. -/
structure StreamData where
  streamId : String
  text : String
  done : Bool
  error : Bool
  deriving DecidableEq, Repr

/-- Renderer state: the message list, `activeStreamRef.current`, and the
`isLoading` flag. -/
structure RendererState where
  messages : List ChatMessage
  activeId : Option String
  isLoading : Bool
  deriving DecidableEq, Repr

/-- The listener's message update: overwrite the content of the last
message when it exists and is an assistant message, else leave the list. -/
def updateLastAssistant (msgs : List ChatMessage) (text : String) : List ChatMessage :=
  match msgs.getLast? with
  | some lastMessage =>
    if lastMessage.role = Role.assistant then
      msgs.dropLast ++ [{ lastMessage with content := text }]
    else msgs
  | none => msgs

/-- Embedding of the `gemini-stream` listener (App.tsx): events are applied
only when their `streamId` equals the active stream reference; a `done`
event additionally clears the reference and the loading flag. -/
def onGeminiStream (s : RendererState) (data : StreamData) : RendererState :=
  if s.activeId = some data.streamId then
    { messages := updateLastAssistant s.messages data.text,
      activeId := if data.done then none else s.activeId,
      isLoading := if data.done then false else s.isLoading }
  else s

/-- Embedding of `handleSubmit` (App.tsx): rejected while a submission is
loading or on blank input; otherwise it makes the fresh message id the
active stream, appends the user message and an empty assistant message, and
sets the loading flag.  `now` models `Date.now()` at the submit. -/
def handleSubmit (s : RendererState) (now : Int) (input : String) : RendererState :=
  if jsTrim input = "" ∨ s.isLoading then s
  else
    { messages := s.messages ++
        [⟨toString now, Role.user, jsTrim input⟩,
         ⟨toString (now + 1), Role.assistant, ""⟩],
      activeId := some (toString (now + 1)),
      isLoading := true }

/-- Content of the last displayed message, if any. -/
def lastContent (s : RendererState) : Option String :=
  s.messages.getLast?.map (fun m => m.content)

/-- The event sequence of one well-formed stream `bId`: cumulative partial
snapshots followed by a single terminal event carrying the final text. -/
def bEvents (bId bFinal : String) (partials : List String) : List StreamData :=
  partials.map (fun t => (⟨bId, t, false, false⟩ : StreamData)) ++
    [⟨bId, bFinal, true, false⟩]

/-! Streaming chat dispatcher (`IPCManager`, the `chat-gemini` handler):
what the handler emits on the `gemini-stream` channel for one stream id. -/

/-- Outcome of the generation collaborator for one query: either the call
`apiServer.chatWithGemini(...)` itself throws (before any stream exists),
or it yields a stream that produces `snaps` cumulative snapshots and then
either ends normally or raises (`errored = true`). -/
inductive GenOutcome where
  | callThrew
  | streamed (snaps : List String) (errored : Bool)

/-- Embedding of the emission behaviour of the `chat-gemini` handler
(IPCManager): a throwing generation call reaches only the outer catch,
which returns an error string and emits nothing; a stream yields one
non-terminal event per snapshot, then one `done` event carrying the full
response, or — when iteration raises — one `done`+`error` event with the
fixed user-facing message.  `windowAlive` models
`window && !window.isDestroyed()` (held constant over the query). -/
def chatGeminiEvents (streamId : String) (o : GenOutcome) (windowAlive : Bool) :
    List StreamData :=
  match o with
  | .callThrew => []
  | .streamed snaps errored =>
    (if windowAlive then snaps.map (fun t => ⟨streamId, t, false, false⟩) else []) ++
    (if windowAlive then
      if errored then [⟨streamId, "Error: Failed to stream response.", true, true⟩]
      else [⟨streamId, snaps.getLast?.getD "", true, false⟩]
     else [])

/-- Word set of a text as a finite set, the spec's formulation ("lowercase
whitespace-tokenized word set") for comparison with the source's
deduplicated-list computation. -/
def wordFinset (s : String) : Finset String := (jsWordList s).toFinset

/-- Rendering policy as the spec words it: qualifying entries are those
with importance ≥ 6 or created within the last 5 minutes; of those the most
recent 10 are kept, oldest first, one "[time] content" line each, under the
fixed header. -/
def renderContextSpec (now : Int) (fmtTime : Int → String) (entries : List MemoryEntry) :
    String :=
  let qualifying := entries.filter
    (fun entry => decide (6 ≤ entry.importance) || decide (now - 300000 < entry.timestamp))
  let recent10 := (qualifying.reverse.take 10).reverse
  if recent10 = [] then ""
  else
    "\n\nRecent screen context:\n" ++
      jsJoin "\n" (recent10.map
        (fun entry => "[" ++ fmtTime entry.timestamp ++ "] " ++ entry.content))

/-- Collaborator environment with no initialized model: the importance
default and the no-model consolidation fallback apply. -/
def envNoModel : CollabEnv := ⟨false, .error (), .error ()⟩

/-- The spec's concrete scenario: 51 sequential unique observations
(`"w0"`, …, `"w50"` at times 0, …, 50) with the collaborator unavailable. -/
def scenario51 : List MemoryEntry :=
  (List.range 51).foldl
    (fun st i => addObservation envNoModel (i : Int) st ("w" ++ toString i)) []

example : jsWordList "Hello  world" = ["hello", "world"] := by decide
example : jsWordList " a b " = ["a", "b", ""] := by decide
example : splitWsRuns " a b ".toList = ["", "a", "b", ""].map String.toList := by decide
example : calculateSimilarity "hello world" "hello world" = mkRat 1 1 := by decide
example : calculateSimilarity "a b" "a c" = mkRat 1 3 := by decide
example : max 1 (min 10 (42 : Int)) = 10 := by decide
example : parseIntJS "  7.9 stuff" = some 7 := by decide
example : parseIntJS "-12" = some (-12) := by decide
example : parseIntJS "abc" = none := by decide
example : parseIntJS "0x1f" = some 31 := by decide
example : assessContentImportance true (.ok " 42 ") = 10 := by decide
example : assessContentImportance true (.ok "-3") = 1 := by decide
example : assessContentImportance true (.error ()) = 5 := by decide
example : assessContentImportance false (.ok "9") = 5 := by decide

/-! General lemmas about the stable sort used by the consolidation
fallbacks. -/

theorem insertStable_perm (le : α → α → Bool) (x : α) (l : List α) :
    (insertStable le x l).Perm (x :: l) := by
  induction l with
  | nil => simp [insertStable]
  | cons y ys ih =>
    simp only [insertStable]
    by_cases h : le x y
    · simp [h]
    · simp only [h, if_false, Bool.false_eq_true]
      exact (ih.cons y).trans (List.Perm.swap x y ys)

theorem sortStable_perm (le : α → α → Bool) (l : List α) :
    (sortStable le l).Perm l := by
  induction l with
  | nil => simp [sortStable]
  | cons x xs ih => exact (insertStable_perm le x (sortStable le xs)).trans (ih.cons x)

theorem mem_sortStable (le : α → α → Bool) (l : List α) (a : α) :
    a ∈ sortStable le l ↔ a ∈ l :=
  (sortStable_perm le l).mem_iff

theorem length_sortStable (le : α → α → Bool) (l : List α) :
    (sortStable le l).length = l.length :=
  (sortStable_perm le l).length_eq

theorem insertStable_pairwise (le : α → α → Bool)
    (htot : ∀ a b, le a b = true ∨ le b a = true)
    (htrans : ∀ a b c, le a b = true → le b c = true → le a c = true)
    (x : α) (l : List α) (hl : l.Pairwise (fun a b => le a b = true)) :
    (insertStable le x l).Pairwise (fun a b => le a b = true) := by
  induction l with
  | nil => simp [insertStable]
  | cons y ys ih =>
    rcases List.pairwise_cons.mp hl with ⟨hy, hys⟩
    simp only [insertStable]
    by_cases h : le x y
    · simp only [h, if_true]
      refine List.pairwise_cons.mpr ⟨?_, hl⟩
      intro b hb
      rcases List.mem_cons.mp hb with rfl | hb
      · exact h
      · exact htrans x y b h (hy b hb)
    · have hyx : le y x = true := by
        rcases htot x y with hxy | hyx
        · exact absurd hxy h
        · exact hyx
      simp only [h, if_false, Bool.false_eq_true]
      refine List.pairwise_cons.mpr ⟨?_, ih hys⟩
      intro b hb
      have hb' : b ∈ x :: ys := (insertStable_perm le x ys).mem_iff.mp hb
      rcases List.mem_cons.mp hb' with rfl | hb''
      · exact hyx
      · exact hy b hb''

theorem sortStable_pairwise (le : α → α → Bool)
    (htot : ∀ a b, le a b = true ∨ le b a = true)
    (htrans : ∀ a b c, le a b = true → le b c = true → le a c = true)
    (l : List α) :
    (sortStable le l).Pairwise (fun a b => le a b = true) := by
  induction l with
  | nil => simp [sortStable]
  | cons x xs ih => exact insertStable_pairwise le htot htrans x _ ih

theorem take_dominates_drop (R : α → α → Prop) (l : List α) (k : Nat)
    (h : l.Pairwise R) : ∀ x ∈ l.take k, ∀ y ∈ l.drop k, R x y := by
  have h' : (l.take k ++ l.drop k).Pairwise R := by
    rw [List.take_append_drop]
    exact h
  exact (List.pairwise_append.mp h').2.2

theorem memLe_total : ∀ a b : MemoryEntry, memLe a b = true ∨ memLe b a = true := by
  intro a b
  simp only [memLe, Bool.or_eq_true, Bool.and_eq_true, decide_eq_true_eq]
  omega

theorem memLe_trans : ∀ a b c : MemoryEntry,
    memLe a b = true → memLe b c = true → memLe a c = true := by
  intro a b c
  simp only [memLe, Bool.or_eq_true, Bool.and_eq_true, decide_eq_true_eq]
  omega

/-! Lemmas about the memory-store operations. -/

theorem assessContentImportance_range (hasModel : Bool) (resp : Except Unit String) :
    1 ≤ assessContentImportance hasModel resp ∧
    assessContentImportance hasModel resp ≤ 10 := by
  unfold assessContentImportance
  cases hasModel with
  | false => simp
  | true =>
    cases resp with
    | error e => simp
    | ok text =>
      cases hp : parseIntJS (jsTrim text) with
      | none => simp [hp]
      | some importance =>
        simp only [hp]
        exact ⟨le_max_left 1 _, max_le (by norm_num) (min_le_left 10 importance)⟩

theorem consolidateMemory_length (env : CollabEnv) (now : Int) (st : List MemoryEntry) :
    (consolidateMemory env now st).length ≤ MAX_MEMORY_ENTRIES := by
  unfold consolidateMemory
  cases h : env.hasModel with
  | false =>
    simp only [Bool.not_false, if_true]
    exact List.length_take_le MAX_MEMORY_ENTRIES (sortStable memLe st)
  | true =>
    cases env.consolidateResp with
    | ok text => simp [MAX_MEMORY_ENTRIES]
    | error e =>
      simp only [Bool.not_true, Bool.false_eq_true, if_false]
      calc ((sortStable memLe st).take (MAX_MEMORY_ENTRIES / 2)).length
          ≤ MAX_MEMORY_ENTRIES / 2 := List.length_take_le _ _
        _ ≤ MAX_MEMORY_ENTRIES := by simp [MAX_MEMORY_ENTRIES]

theorem consolidateMemory_importance (env : CollabEnv) (now : Int)
    (st : List MemoryEntry) (h : ∀ e ∈ st, 1 ≤ e.importance ∧ e.importance ≤ 10) :
    ∀ e ∈ consolidateMemory env now st, 1 ≤ e.importance ∧ e.importance ≤ 10 := by
  unfold consolidateMemory
  cases hm : env.hasModel with
  | false =>
    intro e he
    simp only [Bool.not_false, if_true] at he
    exact h e ((mem_sortStable memLe st e).mp (List.mem_of_mem_take he))
  | true =>
    cases env.consolidateResp with
    | ok text =>
      intro e he
      simp only [Bool.not_true, Bool.false_eq_true, if_false, List.mem_singleton] at he
      subst he
      exact ⟨by norm_num, by norm_num⟩
    | error e' =>
      intro e he
      simp only [Bool.not_true, Bool.false_eq_true, if_false] at he
      exact h e ((mem_sortStable memLe st e).mp (List.mem_of_mem_take he))

theorem addToMemory_inv (env : CollabEnv) (now : Int) (st : List MemoryEntry)
    (content : String) (h : MemInv st) : MemInv (addToMemory env now st content) := by
  unfold addToMemory
  by_cases hd : (st.drop (st.length - 5)).any
      (fun entry => decide (calculateSimilarity entry.content content > mkRat 4 5))
  · simpa [hd] using h
  · simp only [hd, Bool.false_eq_true, if_false]
    have himp : ∀ e ∈ st ++ [(⟨now, content,
        assessContentImportance env.hasModel env.assessResp⟩ : MemoryEntry)],
        1 ≤ e.importance ∧ e.importance ≤ 10 := by
      intro e he
      rcases List.mem_append.mp he with he | he
      · exact h.2 e he
      · rcases List.mem_singleton.mp he with rfl
        exact assessContentImportance_range env.hasModel env.assessResp
    by_cases hlen : (st ++ [(⟨now, content,
        assessContentImportance env.hasModel env.assessResp⟩ : MemoryEntry)]).length >
        MAX_MEMORY_ENTRIES
    · simp only [hlen, if_true]
      exact ⟨consolidateMemory_length env now _,
        consolidateMemory_importance env now _ himp⟩
    · simp only [hlen, if_false]
      exact ⟨by omega, himp⟩

theorem addObservation_inv (env : CollabEnv) (now : Int) (st : List MemoryEntry)
    (text : String) (h : MemInv st) : MemInv (addObservation env now st text) := by
  unfold addObservation
  by_cases ht : jsTrim text = ""
  · simpa [ht] using h
  · simpa [ht] using addToMemory_inv env now st (jsTrim text) h

theorem foldl_memInv (ops : List MemOp) (st : List MemoryEntry) (h : MemInv st) :
    MemInv (ops.foldl applyMemOp st) := by
  induction ops generalizing st with
  | nil => simpa using h
  | cons op ops ih =>
    refine ih (applyMemOp st op) ?_
    cases op with
    | addObs text env now => exact addObservation_inv env now st text h
    | clear => exact ⟨by simp [applyMemOp, MAX_MEMORY_ENTRIES], by simp [applyMemOp]⟩
    | consolidateNow env now =>
      exact ⟨consolidateMemory_length env now st,
        consolidateMemory_importance env now st h.2⟩

/-! Lemmas about the similarity scorer. -/

theorem splitWsStep_fst_ne_nil (c : Char) (p : List (List Char) × Bool)
    (h : p.1 ≠ []) : (splitWsStep c p).1 ≠ [] := by
  rcases p with ⟨ts, lastWs⟩
  unfold splitWsStep
  by_cases hc : jsIsWs c
  · cases lastWs with
    | true => simpa [hc] using h
    | false => simp [hc]
  · cases ts with
    | nil => simp [hc]
    | cons t rest => simp [hc]

theorem splitWsRuns_ne_nil (cs : List Char) : splitWsRuns cs ≠ [] := by
  unfold splitWsRuns
  induction cs with
  | nil => simp
  | cons c cs ih =>
    rw [List.foldr_cons]
    exact splitWsStep_fst_ne_nil c _ ih

theorem jsWordList_nodup (s : String) : (jsWordList s).Nodup :=
  List.nodup_dedup _

theorem jsWordList_ne_nil (s : String) : jsWordList s ≠ [] := by
  unfold jsWordList
  rw [Ne, List.dedup_eq_nil, List.map_eq_nil_iff]
  exact splitWsRuns_ne_nil _

theorem wordFinset_nonempty (s : String) : (wordFinset s).Nonempty :=
  (List.toFinset_nonempty_iff (jsWordList s)).mpr (jsWordList_ne_nil s)

theorem length_filter_contains (w1 w2 : List String) (h1 : w1.Nodup) :
    (w1.filter (fun x => w2.contains x)).length = (w1.toFinset ∩ w2.toFinset).card := by
  have hfil : w1.filter (fun x => w2.contains x) =
      w1.filter (fun x => decide (x ∈ w2.toFinset)) := by
    apply List.filter_congr
    intro x _
    simp
  rw [hfil, ← List.toFinset_card_of_nodup (h1.filter _), List.toFinset_filter]
  congr 1
  rw [← Finset.filter_mem_eq_inter]
  ext x
  simp

theorem length_dedup_append (w1 w2 : List String) :
    ((w1 ++ w2).dedup).length = (w1.toFinset ∪ w2.toFinset).card := by
  rw [← List.card_toFinset, List.toFinset_append]

theorem calculateSimilarity_eq_jaccard (a b : String) :
    calculateSimilarity a b =
      ((wordFinset a ∩ wordFinset b).card : ℚ) / ((wordFinset a ∪ wordFinset b).card : ℚ) := by
  unfold calculateSimilarity wordFinset
  rw [Rat.mkRat_eq_div, length_filter_contains _ _ (jsWordList_nodup a),
    length_dedup_append]
  push_cast
  rfl

theorem unionCard_pos (a b : String) : 0 < (wordFinset a ∪ wordFinset b).card :=
  Finset.card_pos.mpr ((wordFinset_nonempty a).mono Finset.subset_union_left)

/-! Lemmas about the renderer's stream subscriber. -/

theorem onGeminiStream_of_other (s : RendererState) (d : StreamData)
    (h : s.activeId ≠ some d.streamId) : onGeminiStream s d = s := by
  simp [onGeminiStream, h]

theorem onGeminiStream_activeId_cases (s : RendererState) (d : StreamData) :
    (onGeminiStream s d).activeId = s.activeId ∨ (onGeminiStream s d).activeId = none := by
  unfold onGeminiStream
  by_cases h : s.activeId = some d.streamId
  · by_cases hd : d.done
    · simp [h, hd]
    · simp [h, hd]
  · simp [h]

theorem foldl_activeId_inv (bId : String) (evs : List StreamData) (s : RendererState)
    (h : s.activeId = some bId ∨ s.activeId = none) :
    (evs.foldl onGeminiStream s).activeId = some bId ∨
    (evs.foldl onGeminiStream s).activeId = none := by
  induction evs generalizing s with
  | nil => simpa using h
  | cons d evs ih =>
    rw [List.foldl_cons]
    refine ih (onGeminiStream s d) ?_
    rcases onGeminiStream_activeId_cases s d with h' | h'
    · rw [h']
      exact h
    · exact Or.inr h'

theorem foldl_onGeminiStream_filter (bId : String) (evs : List StreamData)
    (s : RendererState) (h : s.activeId = some bId ∨ s.activeId = none) :
    evs.foldl onGeminiStream s =
      (evs.filter (fun d => d.streamId == bId)).foldl onGeminiStream s := by
  induction evs generalizing s with
  | nil => simp
  | cons d evs ih =>
    by_cases hd : d.streamId = bId
    · rw [List.foldl_cons, List.filter_cons_of_pos (by simpa using hd), List.foldl_cons]
      refine ih (onGeminiStream s d) ?_
      rcases onGeminiStream_activeId_cases s d with h' | h'
      · rw [h']
        exact h
      · exact Or.inr h'
    · have hno : onGeminiStream s d = s := by
        refine onGeminiStream_of_other s d ?_
        rcases h with h | h
        · rw [h]
          intro hc
          exact hd (Option.some_inj.mp hc).symm
        · rw [h]
          exact fun hc => Option.noConfusion hc
      rw [List.foldl_cons, hno, List.filter_cons_of_neg (by simpa using hd)]
      exact ih s h

theorem updateLastAssistant_getLast (msgs : List ChatMessage) (text : String)
    (m : ChatMessage) (h : msgs.getLast? = some m) (hrole : m.role = Role.assistant) :
    (updateLastAssistant msgs text).getLast? = some { m with content := text } := by
  unfold updateLastAssistant
  rw [h]
  simp only [hrole, if_true]
  exact List.getLast?_concat _

theorem foldl_bPhase (bId bFinal : String) (partials : List String) :
    ∀ (s : RendererState) (m : ChatMessage),
      s.activeId = some bId → s.messages.getLast? = some m → m.role = Role.assistant →
      ((bEvents bId bFinal partials).foldl onGeminiStream s).activeId = none ∧
      ((bEvents bId bFinal partials).foldl onGeminiStream s).isLoading = false ∧
      lastContent ((bEvents bId bFinal partials).foldl onGeminiStream s) = some bFinal := by
  induction partials with
  | nil =>
    intro s m hact hlast hrole
    unfold bEvents
    simp only [List.map_nil, List.nil_append, List.foldl_cons, List.foldl_nil]
    unfold onGeminiStream
    simp only [hact, if_true, if_pos rfl]
    refine ⟨trivial, trivial, ?_⟩
    unfold lastContent
    simp only [updateLastAssistant_getLast s.messages bFinal m hlast hrole]
    rfl
  | cons p ps ih =>
    intro s m hact hlast hrole
    unfold bEvents
    simp only [List.map_cons, List.cons_append, List.foldl_cons]
    have step := ih (onGeminiStream s ⟨bId, p, false, false⟩) { m with content := p }
      (by unfold onGeminiStream; simp [hact])
      (by
        unfold onGeminiStream
        simp only [hact, if_true, if_pos rfl]
        exact updateLastAssistant_getLast s.messages p m hlast hrole)
      hrole
    unfold bEvents at step
    exact step

/-! Lemmas about context rendering. -/

theorem drop_length_sub_eq_reverse_take (l : List α) (n : Nat) :
    l.drop (l.length - n) = (l.reverse.take n).reverse := by
  rw [← List.rtake_eq_reverse_take_reverse]
  rfl

theorem jsJoin_length_ge_head (sep x : String) (xs : List String) :
    x.length ≤ (jsJoin sep (x :: xs)).length := by
  cases xs with
  | nil => simp [jsJoin]
  | cons y ys =>
    unfold jsJoin
    rw [String.length_append, String.length_append]
    omega

/-! The claims. -/

set_option maxRecDepth 10000 in
/-- Concrete evaluation of the spec's 51-observation scenario with the
collaborator unavailable: the consolidation triggered by the 51st insert
keeps the 50 most recent entries (all of importance 5) ordered most recent
first, dropping only the oldest. -/
theorem scenario51_eq :
    scenario51 = ((List.range 51).reverse.take 50).map
      (fun i => ⟨(i : Int), "w" ++ toString i, 5⟩) := by
  decide

/-- C1: starting from the empty store, after every sequence of completed
memory-store operations (`addObservation` including the consolidation it
may trigger, `clear`, and debug-triggered consolidation) the entry sequence
holds at most `MAX_MEMORY_ENTRIES = 50` entries and every entry's
importance lies in `[1, 10]`.  Each operation of the model is one atomic
step, so no consumer-visible state exceeds the cap. -/
theorem C1_store_invariant (ops : List MemOp) :
    (ops.foldl applyMemOp []).length ≤ MAX_MEMORY_ENTRIES ∧
    ∀ e ∈ ops.foldl applyMemOp [], 1 ≤ e.importance ∧ e.importance ≤ 10 :=
  foldl_memInv ops [] ⟨by simp [MAX_MEMORY_ENTRIES], by simp⟩

/-- C2 counterexample: after the spec's own scenario — 51 sequential unique
observations with the generation collaborator unavailable — the store holds
50 entries, not the 25 the claim requires: the no-model consolidation
branch keeps `MAX_MEMORY_ENTRIES` entries, not `MAX_MEMORY_ENTRIES / 2`. -/
theorem C2_counterexample :
    scenario51.length = 50 ∧ ¬ scenario51.length = 25 := by
  rw [scenario51_eq]
  decide

/-- C2 (amended): when the model is present but the consolidation call
errors, the fallback keeps the top `⌊MAX_MEMORY_ENTRIES / 2⌋ = 25` entries
by (importance desc, createdAt desc); when the collaborator is unavailable,
the fallback instead keeps the top `MAX_MEMORY_ENTRIES = 50` entries under
the same order; consequently the 51-observation scenario ends with the 50
most recent entries.  "Top" is established exactly: each fallback result
has the right length, is sorted by the order, and splits the store — there
is a `discarded` list such that result ++ discarded is a permutation of the
store (so the kept entries are a genuine sub-multiset, original importances
preserved) and every kept entry dominates every discarded one. -/
theorem C2_amended_fallbacks (ar cr : Except Unit String) (now : Int)
    (st : List MemoryEntry) :
    (consolidateMemory ⟨true, ar, .error ()⟩ now st).length = min 25 st.length ∧
    (∀ e ∈ consolidateMemory ⟨true, ar, .error ()⟩ now st, e ∈ st) ∧
    (consolidateMemory ⟨true, ar, .error ()⟩ now st).Pairwise
      (fun a b => memLe a b = true) ∧
    (∃ discarded,
      ((consolidateMemory ⟨true, ar, .error ()⟩ now st) ++ discarded).Perm st ∧
      ∀ x ∈ consolidateMemory ⟨true, ar, .error ()⟩ now st, ∀ y ∈ discarded,
        memLe x y = true) ∧
    (consolidateMemory ⟨false, ar, cr⟩ now st).length = min 50 st.length ∧
    (∀ e ∈ consolidateMemory ⟨false, ar, cr⟩ now st, e ∈ st) ∧
    (consolidateMemory ⟨false, ar, cr⟩ now st).Pairwise
      (fun a b => memLe a b = true) ∧
    (∃ discarded,
      ((consolidateMemory ⟨false, ar, cr⟩ now st) ++ discarded).Perm st ∧
      ∀ x ∈ consolidateMemory ⟨false, ar, cr⟩ now st, ∀ y ∈ discarded,
        memLe x y = true) ∧
    scenario51 = ((List.range 51).reverse.take 50).map
      (fun i => ⟨(i : Int), "w" ++ toString i, 5⟩) := by
  refine ⟨?_, ?_, ?_, ?_, ?_, ?_, ?_, ?_, scenario51_eq⟩
  · show ((sortStable memLe st).take (MAX_MEMORY_ENTRIES / 2)).length = min 25 st.length
    rw [List.length_take, length_sortStable]
    norm_num [MAX_MEMORY_ENTRIES]
  · intro e he
    exact (mem_sortStable memLe st e).mp (List.mem_of_mem_take he)
  · exact (sortStable_pairwise memLe memLe_total memLe_trans st).sublist
      (List.take_sublist _ _)
  · refine ⟨(sortStable memLe st).drop (MAX_MEMORY_ENTRIES / 2), ?_, ?_⟩
    · show ((sortStable memLe st).take (MAX_MEMORY_ENTRIES / 2) ++
          (sortStable memLe st).drop (MAX_MEMORY_ENTRIES / 2)).Perm st
      rw [List.take_append_drop]
      exact sortStable_perm memLe st
    · intro x hx y hy
      exact take_dominates_drop (fun a b => memLe a b = true) (sortStable memLe st)
        (MAX_MEMORY_ENTRIES / 2)
        (sortStable_pairwise memLe memLe_total memLe_trans st) x hx y hy
  · show ((sortStable memLe st).take MAX_MEMORY_ENTRIES).length = min 50 st.length
    rw [List.length_take, length_sortStable]
    norm_num [MAX_MEMORY_ENTRIES]
  · intro e he
    exact (mem_sortStable memLe st e).mp (List.mem_of_mem_take he)
  · exact (sortStable_pairwise memLe memLe_total memLe_trans st).sublist
      (List.take_sublist _ _)
  · refine ⟨(sortStable memLe st).drop MAX_MEMORY_ENTRIES, ?_, ?_⟩
    · show ((sortStable memLe st).take MAX_MEMORY_ENTRIES ++
          (sortStable memLe st).drop MAX_MEMORY_ENTRIES).Perm st
      rw [List.take_append_drop]
      exact sortStable_perm memLe st
    · intro x hx y hy
      exact take_dominates_drop (fun a b => memLe a b = true) (sortStable memLe st)
        MAX_MEMORY_ENTRIES
        (sortStable_pairwise memLe memLe_total memLe_trans st) x hx y hy

/-- C3: the importance assessor always answers an integer in `[1, 10]`:
it answers the default 5 exactly when the collaborator is unavailable, the
call throws, or the (trimmed) response does not parse to an integer, and it
clamps any parsed out-of-range integer into `[1, 10]`. -/
theorem C3_assessor_total (resp : Except Unit String) (text : String) :
    (1 ≤ assessContentImportance true resp ∧ assessContentImportance true resp ≤ 10) ∧
    assessContentImportance false resp = 5 ∧
    assessContentImportance true (.error ()) = 5 ∧
    (parseIntJS (jsTrim text) = none → assessContentImportance true (.ok text) = 5) ∧
    (∀ n, parseIntJS (jsTrim text) = some n →
      assessContentImportance true (.ok text) = max 1 (min 10 n)) := by
  refine ⟨assessContentImportance_range true resp, by simp [assessContentImportance],
    by simp [assessContentImportance], ?_, ?_⟩
  · intro h
    simp [assessContentImportance, h]
  · intro n h
    simp [assessContentImportance, h]

/-- C3 witness: a non-numeric response yields the default 5, and the
out-of-range response " 42 " is parsed and clamped to 10. -/
theorem C3_assessor_total_witness :
    assessContentImportance true (.ok "banana") = 5 ∧
    assessContentImportance true (.ok " 42 ") = 10 := by
  constructor
  · exact (C3_assessor_total (.ok "") "banana").2.2.2.1 (by decide)
  · have h := (C3_assessor_total (.ok "") " 42 ").2.2.2.2 42 (by decide)
    rw [h]
    decide

/-- C4: an observation whose similarity with at least one of the last 5
stored entries exceeds 0.8 leaves the store unchanged, whatever the
collaborator would answer — neither the importance assessment nor the
consolidation outcome can influence the result, because neither call is
reached. -/
theorem C4_duplicate_suppression (env : CollabEnv) (now : Int)
    (st : List MemoryEntry) (text : String)
    (h : ∃ e ∈ st.drop (st.length - 5),
      calculateSimilarity e.content (jsTrim text) > mkRat 4 5) :
    addObservation env now st text = st := by
  unfold addObservation
  by_cases ht : jsTrim text = ""
  · simp [ht]
  · simp only [ht, if_false]
    unfold addToMemory
    have hdup : (st.drop (st.length - 5)).any
        (fun entry => decide (calculateSimilarity entry.content (jsTrim text) > mkRat 4 5)) =
        true := by
      rw [List.any_eq_true]
      rcases h with ⟨e, he, hsim⟩
      exact ⟨e, he, by simpa using hsim⟩
    simp [hdup]

/-- C4 witness: resubmitting an already stored text (similarity 1 > 0.8)
changes nothing. -/
theorem C4_duplicate_suppression_witness :
    (∃ e ∈ ([⟨0, "hello world", 5⟩] : List MemoryEntry).drop
        (([⟨0, "hello world", 5⟩] : List MemoryEntry).length - 5),
      calculateSimilarity e.content (jsTrim "hello world") > mkRat 4 5) ∧
    addObservation envNoModel 1 [⟨0, "hello world", 5⟩] "hello world" =
      [⟨0, "hello world", 5⟩] := by
  refine ⟨by decide, C4_duplicate_suppression envNoModel 1 _ _ (by decide)⟩

/-- C5: after `submit(B)` becomes the active stream (fresh id distinct from
the superseded stream A's id), the subscriber ignores every A-tagged event
— folding the event interleaving equals folding B's events alone, and each
A-tagged event is a no-op at the point it arrives — and once B's cumulative
events end with `done = true` the displayed assistant content is exactly
B's final text, with the active reference and loading flag cleared. -/
theorem C5_stale_stream_suppression (s0 : RendererState) (now : Int)
    (input aId bFinal : String) (bPartials : List String) (evs : List StreamData)
    (h0 : s0.isLoading = false)
    (h1 : jsTrim input ≠ "")
    (hne : aId ≠ toString (now + 1))
    (hB : evs.filter (fun d => d.streamId == toString (now + 1)) =
      bEvents (toString (now + 1)) bFinal bPartials) :
    evs.foldl onGeminiStream (handleSubmit s0 now input) =
      (evs.filter (fun d => d.streamId == toString (now + 1))).foldl onGeminiStream
        (handleSubmit s0 now input) ∧
    lastContent (evs.foldl onGeminiStream (handleSubmit s0 now input)) = some bFinal ∧
    (evs.foldl onGeminiStream (handleSubmit s0 now input)).activeId = none ∧
    (evs.foldl onGeminiStream (handleSubmit s0 now input)).isLoading = false ∧
    (∀ pre d suf, evs = pre ++ d :: suf → d.streamId = aId →
      onGeminiStream (pre.foldl onGeminiStream (handleSubmit s0 now input)) d =
        pre.foldl onGeminiStream (handleSubmit s0 now input)) := by
  have hcond : ¬ (jsTrim input = "" ∨ s0.isLoading = true) := by
    simp [h1, h0]
  have hs1 : handleSubmit s0 now input =
      { messages := s0.messages ++
          [⟨toString now, Role.user, jsTrim input⟩,
           ⟨toString (now + 1), Role.assistant, ""⟩],
        activeId := some (toString (now + 1)),
        isLoading := true } := by
    unfold handleSubmit
    rw [if_neg hcond]
  have hact : (handleSubmit s0 now input).activeId = some (toString (now + 1)) := by
    rw [hs1]
  have hlast : (handleSubmit s0 now input).messages.getLast? =
      some ⟨toString (now + 1), Role.assistant, ""⟩ := by
    rw [hs1]
    show (s0.messages ++ [_, _]).getLast? = _
    rw [show s0.messages ++
        [(⟨toString now, Role.user, jsTrim input⟩ : ChatMessage),
         ⟨toString (now + 1), Role.assistant, ""⟩] =
      (s0.messages ++ [⟨toString now, Role.user, jsTrim input⟩]) ++
        [⟨toString (now + 1), Role.assistant, ""⟩] from by simp]
    exact List.getLast?_concat _
  have herase := foldl_onGeminiStream_filter (toString (now + 1)) evs
    (handleSubmit s0 now input) (Or.inl hact)
  have hphase := foldl_bPhase (toString (now + 1)) bFinal bPartials
    (handleSubmit s0 now input) ⟨toString (now + 1), Role.assistant, ""⟩ hact hlast rfl
  refine ⟨herase, ?_, ?_, ?_, ?_⟩
  · rw [herase, hB]
    exact hphase.2.2
  · rw [herase, hB]
    exact hphase.1
  · rw [herase, hB]
    exact hphase.2.1
  · intro pre d suf heq hd
    have hinv := foldl_activeId_inv (toString (now + 1)) pre
      (handleSubmit s0 now input) (Or.inl hact)
    apply onGeminiStream_of_other
    rcases hinv with h' | h'
    · rw [h', hd]
      intro hc
      exact hne (Option.some_inj.mp hc).symm
    · rw [h']
      exact fun hc => Option.noConfusion hc

/-- C5 witness: stream "A" is superseded by the submission with id "1";
A-tagged events interleaved with B's — one even arriving after B's
`done` — leave the displayed content at B's final text "Hello". -/
theorem C5_stale_stream_suppression_witness :
    lastContent
      (([⟨"A", "s1", false, false⟩, ⟨"1", "He", false, false⟩,
         ⟨"A", "s2", true, false⟩, ⟨"1", "Hello", true, false⟩,
         ⟨"A", "late", false, false⟩] : List StreamData).foldl onGeminiStream
        (handleSubmit ⟨[], none, false⟩ 0 "hi")) = some "Hello" ∧
    (([⟨"A", "s1", false, false⟩, ⟨"1", "He", false, false⟩,
       ⟨"A", "s2", true, false⟩, ⟨"1", "Hello", true, false⟩,
       ⟨"A", "late", false, false⟩] : List StreamData).foldl onGeminiStream
        (handleSubmit ⟨[], none, false⟩ 0 "hi")).activeId = none := by
  have h := C5_stale_stream_suppression ⟨[], none, false⟩ 0 "hi" "A" "Hello" ["He"]
    [⟨"A", "s1", false, false⟩, ⟨"1", "He", false, false⟩,
     ⟨"A", "s2", true, false⟩, ⟨"1", "Hello", true, false⟩,
     ⟨"A", "late", false, false⟩]
    rfl (by decide) (by decide) (by decide)
  exact ⟨h.2.1, h.2.2.1⟩

/-- C6 counterexample: when the generation call itself throws — the model
object being uninitialized makes `apiServer.chatWithGemini` throw before
any stream exists — the handler's outer catch returns an error string and
emits no `gemini-stream` event at all, so no terminal event is emitted for
that stream id, not exactly one. -/
theorem C6_counterexample :
    chatGeminiEvents "s" GenOutcome.callThrew true = [] ∧
    ¬ (chatGeminiEvents "s" GenOutcome.callThrew true).countP
      (fun d => d.done) = 1 := by
  decide

/-- C6 (amended): once the generation call has returned a stream and the
window is alive, exactly one terminal event is emitted per stream id, as
the last event: on normal completion it carries the full response (the last
cumulative snapshot), on stream error the fixed user-facing message with
`error = true`; all preceding events are non-terminal snapshots of the same
id.  A generation call that throws before the stream exists emits nothing
(the invoke resolves to an error string instead). -/
theorem C6_amended_terminal (streamId : String) (snaps : List String) :
    (chatGeminiEvents streamId (.streamed snaps true) true).countP
      (fun d => d.done) = 1 ∧
    (chatGeminiEvents streamId (.streamed snaps true) true).getLast? =
      some ⟨streamId, "Error: Failed to stream response.", true, true⟩ ∧
    (∀ d ∈ (chatGeminiEvents streamId (.streamed snaps true) true).dropLast,
      d.streamId = streamId ∧ d.done = false ∧ d.error = false) ∧
    (chatGeminiEvents streamId (.streamed snaps false) true).countP
      (fun d => d.done) = 1 ∧
    (chatGeminiEvents streamId (.streamed snaps false) true).getLast? =
      some ⟨streamId, snaps.getLast?.getD "", true, false⟩ ∧
    (∀ d ∈ (chatGeminiEvents streamId (.streamed snaps false) true).dropLast,
      d.streamId = streamId ∧ d.done = false ∧ d.error = false) ∧
    chatGeminiEvents streamId GenOutcome.callThrew true = [] := by
  have hE : chatGeminiEvents streamId (.streamed snaps true) true =
      snaps.map (fun t => (⟨streamId, t, false, false⟩ : StreamData)) ++
        [⟨streamId, "Error: Failed to stream response.", true, true⟩] := by
    simp [chatGeminiEvents]
  have hN : chatGeminiEvents streamId (.streamed snaps false) true =
      snaps.map (fun t => (⟨streamId, t, false, false⟩ : StreamData)) ++
        [⟨streamId, snaps.getLast?.getD "", true, false⟩] := by
    simp [chatGeminiEvents]
  have hcount : ∀ term : StreamData, term.done = true →
      ((snaps.map (fun t => (⟨streamId, t, false, false⟩ : StreamData))) ++
        [term]).countP (fun d => d.done) = 1 := by
    intro term hterm
    rw [List.countP_append]
    have h0 : (snaps.map (fun t => (⟨streamId, t, false, false⟩ : StreamData))).countP
        (fun d => d.done) = 0 := by
      rw [List.countP_eq_zero]
      intro d hd
      rcases List.mem_map.mp hd with ⟨t, _, rfl⟩
      simp
    rw [h0, List.countP_singleton]
    simp [hterm]
  refine ⟨?_, ?_, ?_, ?_, ?_, ?_, by simp [chatGeminiEvents]⟩
  · rw [hE]
    exact hcount _ rfl
  · rw [hE]
    exact List.getLast?_concat _
  · rw [hE, List.dropLast_concat]
    intro d hd
    rcases List.mem_map.mp hd with ⟨t, _, rfl⟩
    exact ⟨rfl, rfl, rfl⟩
  · rw [hN]
    exact hcount _ rfl
  · rw [hN]
    exact List.getLast?_concat _
  · rw [hN, List.dropLast_concat]
    intro d hd
    rcases List.mem_map.mp hd with ⟨t, _, rfl⟩
    exact ⟨rfl, rfl, rfl⟩

/-- C6 witness: a two-snapshot normal stream emits exactly one terminal
event, and a one-snapshot erroring stream ends in the fixed error event. -/
theorem C6_amended_terminal_witness :
    (chatGeminiEvents "q" (.streamed ["a", "ab"] false) true).countP
      (fun d => d.done) = 1 ∧
    (chatGeminiEvents "q" (.streamed ["a"] true) true).getLast? =
      some ⟨"q", "Error: Failed to stream response.", true, true⟩ :=
  ⟨(C6_amended_terminal "q" ["a", "ab"]).2.2.2.1, (C6_amended_terminal "q" ["a"]).2.1⟩

/-- C7: the similarity scorer computes the Jaccard index of the two
lowercase whitespace-tokenized word sets; it is symmetric, total (the
denominator — the union — is never empty, since tokenizing any string
yields at least one token), always in `[0, 1]`, and reflexive on non-empty
strings. -/
theorem C7_similarity_jaccard (a b : String) :
    calculateSimilarity a b =
      ((wordFinset a ∩ wordFinset b).card : ℚ) /
        ((wordFinset a ∪ wordFinset b).card : ℚ) ∧
    calculateSimilarity a b = calculateSimilarity b a ∧
    0 ≤ calculateSimilarity a b ∧
    calculateSimilarity a b ≤ 1 ∧
    0 < (wordFinset a ∪ wordFinset b).card ∧
    (a ≠ "" → calculateSimilarity a a = 1) := by
  have hpos : (0 : ℚ) < ((wordFinset a ∪ wordFinset b).card : ℚ) := by
    exact_mod_cast unionCard_pos a b
  refine ⟨calculateSimilarity_eq_jaccard a b, ?_, ?_, ?_, unionCard_pos a b, ?_⟩
  · rw [calculateSimilarity_eq_jaccard a b, calculateSimilarity_eq_jaccard b a,
      Finset.inter_comm, Finset.union_comm]
  · rw [calculateSimilarity_eq_jaccard a b]
    positivity
  · rw [calculateSimilarity_eq_jaccard a b, div_le_one hpos]
    exact_mod_cast Finset.card_le_card
      (Finset.inter_subset_left.trans Finset.subset_union_left)
  · intro _
    rw [calculateSimilarity_eq_jaccard a a, Finset.inter_self, Finset.union_self]
    refine div_self ?_
    exact_mod_cast (Finset.card_pos.mpr (wordFinset_nonempty a)).ne'

/-- C7 witness: reflexivity instantiated at the non-empty string
"hello world". -/
theorem C7_similarity_jaccard_witness :
    ("hello world" : String) ≠ "" ∧
    calculateSimilarity "hello world" "hello world" = 1 :=
  ⟨by decide, (C7_similarity_jaccard "hello world" "x").2.2.2.2.2 (by decide)⟩

/-- C8: an observation whose text is empty or whitespace-only is dropped by
the capture pipeline before the store is touched: the entry sequence is
unchanged whatever the collaborator outcomes, so no entry is appended and
no consolidation runs. -/
theorem C8_blank_observation_noop (env : CollabEnv) (now : Int)
    (st : List MemoryEntry) (text : String) (h : jsTrim text = "") :
    addObservation env now st text = st := by
  simp [addObservation, h]

/-- C8 witness: a whitespace-only observation leaves the empty store
empty. -/
theorem C8_blank_observation_noop_witness :
    jsTrim " \t " = "" ∧ addObservation envNoModel 0 [] " \t " = [] :=
  ⟨by decide, C8_blank_observation_noop envNoModel 0 [] " \t " (by decide)⟩

/-- C9 counterexample: on a store holding one qualifying entry,
`getMemoryContext` does not return the bare "[time] content" line: it
prefixes the fixed header "\n\nRecent screen context:\n". -/
theorem C9_counterexample :
    getMemoryContext 0 (fun _ => "t") [⟨0, "x", 9⟩] =
      "\n\nRecent screen context:\n[t] x" ∧
    ¬ getMemoryContext 0 (fun _ => "t") [⟨0, "x", 9⟩] = "[t] x" := by
  decide

/-- C9 (amended): `getMemoryContext` returns the empty string on an empty
store, and in general renders exactly the spec's policy — the most recent
10 entries with importance ≥ 6 or created in the last 5 minutes, oldest
first, one "[time] content" line each — prefixed, when any line exists, by
the header "\n\nRecent screen context:\n". -/
theorem C9_amended_render (now : Int) (fmtTime : Int → String)
    (st : List MemoryEntry) :
    getMemoryContext now fmtTime [] = "" ∧
    getMemoryContext now fmtTime st = renderContextSpec now fmtTime st := by
  constructor
  · simp [getMemoryContext]
  · unfold getMemoryContext renderContextSpec
    by_cases h0 : st.length = 0
    · have hst : st = [] := List.length_eq_zero.mp h0
      subst hst
      simp
    · simp only [h0, if_false]
      rw [drop_length_sub_eq_reverse_take]
      cases hr : ((st.filter (fun entry =>
          decide (6 ≤ entry.importance) ||
          decide (now - 300000 < entry.timestamp))).reverse.take 10).reverse with
      | nil => simp [hr, jsJoin]
      | cons x xs =>
        have hline : (1 : Nat) ≤
            ("[" ++ fmtTime x.timestamp ++ "] " ++ x.content).length := by
          rw [String.length_append, String.length_append, String.length_append]
          have h1 : ("[" : String).length = 1 := rfl
          omega
        have hjoin : jsJoin "\n" ((x :: xs).map
            (fun entry => "[" ++ fmtTime entry.timestamp ++ "] " ++ entry.content)) ≠
            "" := by
          intro hc
          have hlen := jsJoin_length_ge_head "\n"
            ("[" ++ fmtTime x.timestamp ++ "] " ++ x.content)
            (xs.map (fun entry => "[" ++ fmtTime entry.timestamp ++ "] " ++ entry.content))
          rw [List.map_cons] at hc
          rw [hc] at hlen
          have hz : ("" : String).length = 0 := rfl
          omega
        simp only [hjoin, if_false]
        simp

/-- C10: the debug `get-memory-entries` handler answers exactly the final
segment of the store of length `min 20 (length)`: the most recent 20
entries in insertion order, the older ones being exactly the prefix it
omits; the handler reads the store without modifying it. -/
theorem C10_debug_last20 (st : List MemoryEntry) :
    (getMemoryEntriesDebug st).length = min 20 st.length ∧
    st.take (st.length - 20) ++ getMemoryEntriesDebug st = st := by
  unfold getMemoryEntriesDebug
  constructor
  · rw [List.length_drop]
    omega
  · exact List.take_append_drop _ st

/-- C1 witness: the invariant instantiated on a concrete operation
sequence mixing observations, a clear, and a debug consolidation. -/
theorem C1_store_invariant_witness :
    (([MemOp.addObs "alpha" envNoModel 0, MemOp.clear,
       MemOp.addObs "beta" envNoModel 1,
       MemOp.consolidateNow envNoModel 2] : List MemOp).foldl
        applyMemOp []).length ≤ MAX_MEMORY_ENTRIES ∧
    ∀ e ∈ ([MemOp.addObs "alpha" envNoModel 0, MemOp.clear,
       MemOp.addObs "beta" envNoModel 1,
       MemOp.consolidateNow envNoModel 2] : List MemOp).foldl applyMemOp [],
      1 ≤ e.importance ∧ e.importance ≤ 10 :=
  C1_store_invariant _

/-- C2 witness: the amended fallback characterization instantiated on a
concrete two-entry store with an erroring consolidation call. -/
theorem C2_amended_fallbacks_witness :
    (consolidateMemory ⟨true, Except.error (), Except.error ()⟩ 0
        [⟨0, "a", 3⟩, ⟨1, "b", 7⟩]).length =
      min 25 ([⟨0, "a", 3⟩, ⟨1, "b", 7⟩] : List MemoryEntry).length ∧
    ∀ e ∈ consolidateMemory ⟨true, Except.error (), Except.error ()⟩ 0
        [⟨0, "a", 3⟩, ⟨1, "b", 7⟩],
      e ∈ ([⟨0, "a", 3⟩, ⟨1, "b", 7⟩] : List MemoryEntry) :=
  ⟨(C2_amended_fallbacks (Except.error ()) (Except.error ()) 0 _).1,
   (C2_amended_fallbacks (Except.error ()) (Except.error ()) 0 _).2.1⟩
